import Mathlib

/-!
Verification of the `rust-tello` protocol engine against its specification.

The Rust sources are shallowly embedded: bytes are `Nat` values below 256,
byte buffers are `List Nat`, machine integers are `Nat`/`Int` with explicit
`% 2^w` where wrap-around matters (wrapping, i.e. release-mode, semantics),
and code that can panic (out-of-bounds indexing, `expect`, `fatal`) is
modelled with `Option`/sum results where the panic case is `none`.
-/

namespace RustTello

set_option maxRecDepth 4096

/-- Modelled from the spec: the repository's `crc` module (declared in
`lib.rs` as `pub(crate) mod crc` and used from `messages.rs` as
`crate::crc::{calculate_crc8, calculate_crc16}`) is not among the sources.
Per the spec it provides "CRC-8 and CRC-16 (polynomials and seeds fixed by
protocol)", the CRC-8/MAXIM and CRC-16/CCITT reflected variants used by the
Tello drone.  This is one shift step of the reflected CRC-8, polynomial
0x8C. -/
def crc8Step (c : Nat) : Nat :=
  if c % 2 = 1 then (c / 2) ^^^ 0x8c else c / 2

/-- Modelled from the spec: CRC-8 update with one input byte. -/
def crc8Byte (c b : Nat) : Nat :=
  crc8Step^[8] (c ^^^ b)

/-- Modelled from the spec: `calculate_crc8`, seed 0x77.  The golden frames
in the repository's tests (e.g. `do_takeoff(123)`) pin its values down; the
anonymous examples below check this model against them. -/
def calculate_crc8 (bytes : List Nat) : Nat :=
  bytes.foldl crc8Byte 0x77

/-- Modelled from the spec: one shift step of the reflected CRC-16,
polynomial 0x8408. -/
def crc16Step (c : Nat) : Nat :=
  if c % 2 = 1 then (c / 2) ^^^ 0x8408 else c / 2

/-- Modelled from the spec: CRC-16 update with one input byte. -/
def crc16Byte (c b : Nat) : Nat :=
  crc16Step^[8] (c ^^^ b)

/-- Modelled from the spec: `calculate_crc16`, seed 0x3692. -/
def calculate_crc16 (bytes : List Nat) : Nat :=
  bytes.foldl crc16Byte 0x3692

/-- `messages.rs`: `MSG_HDR`. -/
def MSG_HDR : Nat := 0xcc

/-- `messages.rs`: `MIN_PKT_SZ`. -/
def MIN_PKT_SZ : Nat := 11

/-- `messages.rs`: `struct TelloPacket`.  `payload` is the byte vector;
`from_drone`/`to_drone`/`packet_type`/`packet_subtype` are the four fields
that share byte 4 of the raw frame. -/
structure TelloPacket where
  header : Nat
  size13 : Nat
  crc8 : Nat
  from_drone : Bool
  to_drone : Bool
  packet_type : Nat
  packet_subtype : Nat
  message_id : Nat
  sequence : Nat
  payload : List Nat
  crc16 : Nat
deriving Repr, DecidableEq

/-- `TelloPacket::to_buffer`: lays the frame out exactly as the source does:
header, two size bytes (`packet_size << 3` low byte, `packet_size >> 5` high
byte), CRC-8 over bytes 0..3, the packed direction/type byte, little-endian
message id and sequence, the payload, and a trailing little-endian CRC-16
over everything before it. -/
def TelloPacket.to_buffer (p : TelloPacket) : List Nat :=
  let payload_size := p.payload.length
  let packet_size := MIN_PKT_SZ + payload_size
  let b0 := p.header
  let b1 := (packet_size <<< 3) % 256
  let b2 := (packet_size >>> 5) % 256
  let b3 := calculate_crc8 [b0, b1, b2]
  let b4base := (p.packet_subtype + ((p.packet_type <<< 3) % 256)) % 256
  let b4to := if p.to_drone then b4base ||| 0x40 else b4base
  let b4 := if p.from_drone then b4to ||| 0x80 else b4to
  let body := [b0, b1, b2, b3, b4,
      p.message_id % 256, (p.message_id >>> 8) % 256,
      p.sequence % 256, (p.sequence >>> 8) % 256] ++ p.payload
  let c16 := calculate_crc16 body
  body ++ [c16 % 256, (c16 >>> 8) % 256]

/-- The size field of a raw frame as `from_buffer` reads it:
`(buff[1] as u16 + ((buff[2] as u16) << 8)) >> 3`, i.e. bits 3..15 of
bytes 1 and 2. -/
def pktSzOf (buff : List Nat) : Nat :=
  (buff.getD 1 0 + ((buff.getD 2 0) <<< 8)) >>> 3

/-- `TelloPacket::from_buffer`.  The source indexes the buffer without any
explicit length checks and computes `payload_sz = pkt_sz - MIN_PKT_SZ` on
`usize`; a buffer with fewer than 3 bytes, a size field below 11, or a
buffer shorter than the size field makes it panic (out-of-range index or
slice).  Those panics are modelled as `none`.  The CRC-8/CRC-16
recomputation in the source only feeds log messages and never aborts the
decode, so no CRC condition appears here. -/
def TelloPacket.from_buffer (buff : List Nat) : Option TelloPacket :=
  if 3 ≤ buff.length ∧ MIN_PKT_SZ ≤ pktSzOf buff ∧ pktSzOf buff ≤ buff.length
  then
    let pkt_sz := pktSzOf buff
    let payload_sz := pkt_sz - MIN_PKT_SZ
    let c16 := ((buff.getD (pkt_sz - 1) 0) <<< 8) + buff.getD (pkt_sz - 2) 0
    some {
      header := buff.getD 0 0
      size13 := pkt_sz
      crc8 := buff.getD 3 0
      from_drone := (buff.getD 4 0) &&& 0x80 = 1
      to_drone := (buff.getD 4 0) &&& 0x40 = 1
      packet_type := ((buff.getD 4 0) >>> 3) &&& 0x07
      packet_subtype := (buff.getD 4 0) &&& 0x07
      message_id := ((buff.getD 6 0) <<< 8) ||| buff.getD 5 0
      sequence := ((buff.getD 8 0) <<< 8) ||| buff.getD 7 0
      payload := (buff.drop 9).take payload_sz
      crc16 := c16 }
  else none

/-- The golden `do_takeoff(123)` frame from the repository's test
`test_do_takeoff`. -/
def takeoffFrame : List Nat := [204, 88, 0, 124, 104, 84, 0, 123, 0, 222, 157]

example : calculate_crc8 [204, 88, 0] = 124 := by decide
example : calculate_crc16 [204, 88, 0, 124, 104, 84, 0, 123, 0] = 157 * 256 + 222 := by decide

/-- `messages.rs`: packet type codes. -/
def PT_GET : Nat := 1
def PT_DATA1 : Nat := 2
def PT_DATA2 : Nat := 4
def PT_SET : Nat := 5
def PT_FLIP : Nat := 6

/-- `messages.rs`: message ids used below. -/
def MSG_DO_TAKEOFF : Nat := 0x0054
def MSG_SET_STICK : Nat := 0x0050
def MSG_FILE_DATA : Nat := 0x0063

/-- `TelloPacket::new_with_payload`. -/
def TelloPacket.new_with_payload (packet_type cmd sequence : Nat)
    (payload : List Nat) : TelloPacket :=
  { header := MSG_HDR
    size13 := 0
    crc8 := 0
    from_drone := false
    to_drone := true
    packet_type := packet_type
    packet_subtype := 0
    message_id := cmd
    sequence := sequence
    payload := payload
    crc16 := 0 }

/-- `TelloPacket::new`. -/
def TelloPacket.new (packet_type cmd sequence : Nat) (param : Option Nat) :
    TelloPacket :=
  TelloPacket.new_with_payload packet_type cmd sequence
    (match param with
     | some v => [v]
     | none => [])

/-- `messages::do_takeoff`. -/
def do_takeoff (seq : Nat) : List Nat :=
  (TelloPacket.new PT_SET MSG_DO_TAKEOFF seq none).to_buffer

example : do_takeoff 123 = takeoffFrame := by decide

/-- `utils::js_int16_to_tello`: `sv as u64` on an `i16`, i.e. the 64-bit
two's-complement pattern of `sv`. -/
def js_int16_to_tello (sv : Int) : Nat :=
  (sv % (2 ^ 64 : Nat)).toNat

/-- `messages::send_stick_update`: packs the four axes (11 bits each) and
the sports-mode bit into a 6-byte little-endian field, followed by
hour/minute/second and little-endian milliseconds; frames it as a
`PT_DATA2`/`MSG_SET_STICK` packet with sequence 0. -/
def send_stick_update (rx ry lx ly : Int) (sports_mode : Bool)
    (hour minute second millis : Nat) : List Nat :=
  let pa0 := js_int16_to_tello rx &&& 0x7ff
  let pa1 := pa0 ||| ((js_int16_to_tello ry &&& 0x07ff) <<< 11)
  let pa2 := pa1 ||| ((js_int16_to_tello ly &&& 0x07ff) <<< 22)
  let pa3 := pa2 ||| ((js_int16_to_tello lx &&& 0x07ff) <<< 33)
  let packed_axes := if sports_mode then pa3 ||| (1 <<< 44) else pa3
  let payload := [packed_axes % 256,
      (packed_axes >>> 8) % 256,
      (packed_axes >>> 16) % 256,
      (packed_axes >>> 24) % 256,
      (packed_axes >>> 32) % 256,
      (packed_axes >>> 40) % 256,
      hour, minute, second,
      millis &&& 0xff, (millis >>> 8) % 256]
  (TelloPacket.new_with_payload PT_DATA2 MSG_SET_STICK 0 payload).to_buffer

example :
    send_stick_update 1024 1024 1024 1024 false 20 20 30 3209 =
      [204, 176, 0, 127, 96, 80, 0, 0, 0, 0, 4, 32, 0, 1, 8, 20, 20, 30,
       137, 12, 49, 146] := by decide

example :
    send_stick_update 1024 1684 1024 1024 false 20 25 4 8614 =
      [204, 176, 0, 127, 96, 80, 0, 0, 0, 0, 164, 52, 0, 1, 8, 20, 25, 4,
       166, 33, 127, 123] := by decide

/-- `u32` modulus. -/
def U32 : Nat := 2 ^ 32

/-- Reinterpret a 16-bit pattern as a signed `i16` value. -/
def i16OfBits (n : Nat) : Int :=
  if n < 32768 then (n : Int) else (n : Int) - 65536

/-- Reinterpret an 8-bit pattern as a signed `i8` value. -/
def i8OfBits (n : Nat) : Int :=
  if n < 128 then (n : Int) else (n : Int) - 256

/-- `messages.rs`: `enum FileType` (`From<u8>`: 1 is JPEG). -/
inductive FileType where
  | FtJPEG
  | FtUnknown
deriving Repr, DecidableEq

/-- `impl From<u8> for FileType`. -/
def FileType.fromByte (value : Nat) : FileType :=
  if value = 1 then .FtJPEG else .FtUnknown

/-- `messages.rs`: `struct FileChunk`. -/
structure FileChunk where
  f_id : Nat
  piece_num : Nat
  chunk_num : Nat
  chunk_len : Nat
  chunk_data : List Nat
deriving Repr, DecidableEq

/-- `FileChunk::new`: a payload of 13 bytes or fewer calls `utils::fatal`,
which logs and exits the whole process (modelled as `none`).  The `f_id`
parse keeps the source's precedence slip: `(pl[0] as u16) + (pl[1] as u16)
<< 8` is `((pl[0] + pl[1]) << 8)` on `u16`. -/
def FileChunk.new (pl : List Nat) : Option FileChunk :=
  if pl.length ≤ 13 then none
  else some {
    f_id := ((pl.getD 0 0 + pl.getD 1 0) <<< 8) % 65536
    piece_num := pl.getD 2 0 + ((pl.getD 3 0) <<< 8) + ((pl.getD 4 0) <<< 16)
      + ((pl.getD 5 0) <<< 24)
    chunk_num := pl.getD 6 0 + ((pl.getD 7 0) <<< 8) + ((pl.getD 8 0) <<< 16)
      + ((pl.getD 9 0) <<< 24)
    chunk_len := pl.getD 10 0 + ((pl.getD 11 0) <<< 8)
    chunk_data := pl.drop 12 }

/-- `messages.rs`: `struct FilePiece`, eight chunk slots. -/
structure FilePiece where
  num_chunks : Int
  chunks : List (Option FileChunk)
deriving Repr, DecidableEq

/-- `FilePiece::new`. -/
def FilePiece.new : FilePiece :=
  { num_chunks := 0, chunks := List.replicate 8 none }

/-- `messages.rs`: `struct FileInternal`. -/
structure FileInternal where
  f_id : Nat
  file_type : FileType
  expected_size : Nat
  accum_size : Nat
  pieces : List FilePiece
deriving Repr, DecidableEq

/-- `FileInternal::new` (parses the `MSG_FILE_SIZE` payload; indexing
`pl[0]`..`pl[6]` panics on shorter payloads, modelled as `none`). -/
def FileInternal.new (pl : List Nat) : Option FileInternal :=
  if 7 ≤ pl.length then
    some {
      f_id := pl.getD 5 0 + ((pl.getD 6 0) <<< 8)
      file_type := FileType.fromByte (pl.getD 0 0)
      expected_size := pl.getD 1 0 + ((pl.getD 2 0) <<< 8)
        + ((pl.getD 3 0) <<< 16) + ((pl.getD 4 0) <<< 24)
      accum_size := 0
      pieces := [] }
  else none

/-- The `MSG_FILE_DATA` branch of `Tello::process_packet` as a pure state
transition on the chunk's `FileInternal` entry (the `and_modify` closure):
grow `pieces` with empty pieces up to index `piece_num`, and if the piece
has fewer than 8 chunks and slot `chunk_num & 7` is empty, store the chunk,
bump `num_chunks` and add `chunk_len as u32` to `accum_size` (u32
wrap-around made explicit).  The `ack_file_piece`/`file_done` sends and the
`save()` call are I/O observers of the resulting state; `saveRuns` below
captures the condition under which `save()` is invoked. -/
def grownPieces (f : FileInternal) (c : FileChunk) : List FilePiece :=
  f.pieces ++ List.replicate (c.piece_num + 1 - f.pieces.length) FilePiece.new

def processFileData (f : FileInternal) (c : FileChunk) : FileInternal :=
  let grown := grownPieces f c
  let this_piece := grown.getD c.piece_num FilePiece.new
  let idx := c.chunk_num &&& 7
  if this_piece.num_chunks < 8 ∧ this_piece.chunks.getD idx none = none then
    { f with
      accum_size := (f.accum_size + c.chunk_len % U32) % U32
      pieces := grown.set c.piece_num
        { num_chunks := this_piece.num_chunks + 1
          chunks := this_piece.chunks.set idx (some c) } }
  else
    { f with pieces := grown }

/-- The condition under which the `MSG_FILE_DATA` branch calls
`internal_file.save()` (and sends `ack_file_piece(done=true)` and
`file_done`): after the update, `accum_size == expected_size`. -/
def saveRuns (f : FileInternal) (c : FileChunk) : Bool :=
  (processFileData f c).accum_size == f.expected_size

/-- The (u32) length contributed by one chunk slot. -/
def chunkLenOf : Option FileChunk → Nat
  | some c => c.chunk_len % U32
  | none => 0

/-- Sum of `chunk_len` over the stored chunks of one piece. -/
def pieceLenSum (p : FilePiece) : Nat :=
  (p.chunks.map chunkLenOf).sum

/-- Sum of `chunk_len` over all stored chunks of a file. -/
def chunkLenSum (f : FileInternal) : Nat :=
  (f.pieces.map pieceLenSum).sum

/-- The chunk's slot (`chunk_num mod 8` of its piece) is already occupied. -/
def slotOccupied (f : FileInternal) (c : FileChunk) : Prop :=
  c.piece_num < f.pieces.length ∧
    (((f.pieces.getD c.piece_num FilePiece.new).chunks.getD
      (c.chunk_num &&& 7) none)).isSome

instance (f : FileInternal) (c : FileChunk) : Decidable (slotOccupied f c) := by
  unfold slotOccupied
  infer_instance

/-- `messages.rs`: `struct FlightData` decoded from the 24-byte
`MSG_FLIGHT_STATUS` payload. -/
structure FlightData where
  battery_critical : Bool
  battery_low : Bool
  battery_milli_volts : Int
  battery_percentage : Int
  battery_state : Bool
  camera_state : Nat
  down_visual_state : Bool
  drone_fly_time_left : Int
  drone_hover : Bool
  east_speed : Int
  electrical_machinery_state : Nat
  em_open : Bool
  error_state : Bool
  factory_mode : Bool
  flying : Bool
  fly_mode : Nat
  fly_time : Int
  front_in : Bool
  front_lsc : Bool
  front_out : Bool
  gravity_state : Bool
  height : Int
  imu_calibration_state : Int
  imu_state : Bool
  north_speed : Int
  on_ground : Bool
  outage_recording : Bool
  power_state : Bool
  pressure_state : Bool
  throw_fly_timer : Int
  vertical_speed : Int
  wind_state : Bool
deriving Repr, DecidableEq

/-- `FlightData::new`.  The source mixes two decoding idioms: fields using
`(a as i16) | (b as i16) << 8` assemble the little-endian bit pattern
(`<<` on `i16` keeps the low 16 bits), while `height`,
`drone_fly_time_left` and `battery_milli_volts` are written
`(a as i16) + (b as i16) << 8`, which by precedence is `((a + b) << 8)`.
Indexing `pl[0]`..`pl[23]` panics on shorter payloads (`none`). -/
def FlightData.new (pl : List Nat) : Option FlightData :=
  if 24 ≤ pl.length then
    some {
      height := i16OfBits (((pl.getD 0 0 + pl.getD 1 0) <<< 8) % 65536)
      north_speed := i16OfBits ((pl.getD 2 0 ||| ((pl.getD 3 0) <<< 8)) % 65536)
      east_speed := i16OfBits ((pl.getD 4 0 ||| ((pl.getD 5 0) <<< 8)) % 65536)
      vertical_speed := i16OfBits ((pl.getD 6 0 ||| ((pl.getD 7 0) <<< 8)) % 65536)
      fly_time := i16OfBits ((pl.getD 8 0 ||| ((pl.getD 9 0) <<< 8)) % 65536)
      imu_state := (pl.getD 10 0) &&& 1 = 1
      pressure_state := ((pl.getD 10 0) >>> 1) &&& 1 = 1
      down_visual_state := ((pl.getD 10 0) >>> 2) &&& 1 = 1
      power_state := ((pl.getD 10 0) >>> 3) &&& 1 = 1
      battery_state := ((pl.getD 10 0) >>> 4) &&& 1 = 1
      gravity_state := ((pl.getD 10 0) >>> 5) &&& 1 = 1
      wind_state := ((pl.getD 10 0) >>> 7) &&& 1 = 1
      imu_calibration_state := i8OfBits ((pl.getD 11 0) % 256)
      battery_percentage := i8OfBits ((pl.getD 12 0) % 256)
      drone_fly_time_left := i16OfBits (((pl.getD 13 0 + pl.getD 14 0) <<< 8) % 65536)
      battery_milli_volts := i16OfBits (((pl.getD 15 0 + pl.getD 16 0) <<< 8) % 65536)
      flying := (pl.getD 17 0) &&& 1 = 1
      on_ground := ((pl.getD 17 0) >>> 1) &&& 1 = 1
      em_open := ((pl.getD 17 0) >>> 2) &&& 1 = 1
      drone_hover := ((pl.getD 17 0) >>> 3) &&& 1 = 1
      outage_recording := ((pl.getD 17 0) >>> 4) &&& 1 = 1
      battery_low := ((pl.getD 17 0) >>> 5) &&& 1 = 1
      battery_critical := ((pl.getD 17 0) >>> 6) &&& 1 = 1
      factory_mode := ((pl.getD 17 0) >>> 7) &&& 1 = 1
      fly_mode := pl.getD 18 0
      throw_fly_timer := i8OfBits ((pl.getD 19 0) % 256)
      camera_state := pl.getD 20 0
      electrical_machinery_state := pl.getD 21 0
      front_in := (pl.getD 22 0) &&& 1 = 1
      front_out := ((pl.getD 22 0) >>> 1) &&& 1 = 1
      front_lsc := ((pl.getD 22 0) >>> 2) &&& 1 = 1
      error_state := (pl.getD 23 0) &&& 1 = 1 }
  else none

/-- `tello.rs`: `RC_VAL_MIN` / `RC_VAL_MAX`. -/
def RC_VAL_MIN : Int := 364
def RC_VAL_MAX : Int := 1684

namespace Tello

/-- `Tello::joy` with `smooth = true`: the source computes
`x = 0.5 * (v * (max - min) + (max + min))` in `f32`, casts it to `i16`
(`y = x as i16`), and clamps `y` to `[min, max]`.  The `f32` arithmetic is
outside this embedding; since the clamp alone decides the range claim, the
function is modelled over the cast result `y`, quantified over every
integer (which covers the image of every possible float input, the
float-to-`i16` cast being saturating). -/
def joySmoothClamp (y min max : Int) : Int :=
  let y1 := if y < min then min else y
  if max < y1 then max else y1

end Tello

/-- `tello.rs`: `struct Stick`.  The four axis fields are `f32` in the
source; the claims about them are purely structural (which field each
command writes), so the component type is left abstract with just the
negation and zero used by the commands. -/
structure Stick (α : Type) where
  rx : α
  ry : α
  lx : α
  ly : α
deriving Repr, DecidableEq

namespace Tello

variable {α : Type}

/-- `Stick::default`. -/
def stickDefault [Zero α] : Stick α := { rx := 0, ry := 0, lx := 0, ly := 0 }

/-- `Tello::forward`: `stick.ry = amt`. -/
def forward (s : Stick α) (amt : α) : Stick α := { s with ry := amt }

/-- `Tello::backward`: `stick.ry = -amt`. -/
def backward [Neg α] (s : Stick α) (amt : α) : Stick α := { s with ry := -amt }

/-- `Tello::left`: `stick.rx = -amt`. -/
def left [Neg α] (s : Stick α) (amt : α) : Stick α := { s with rx := -amt }

/-- `Tello::right`: `stick.rx = amt`. -/
def right (s : Stick α) (amt : α) : Stick α := { s with rx := amt }

/-- `Tello::up`: `stick.ly = amt`. -/
def up (s : Stick α) (amt : α) : Stick α := { s with ly := amt }

/-- `Tello::down`: `stick.ly = -amt`. -/
def down [Neg α] (s : Stick α) (amt : α) : Stick α := { s with ly := -amt }

/-- `Tello::turn_clockwise`: `stick.lx = amt`. -/
def turn_clockwise (s : Stick α) (amt : α) : Stick α := { s with lx := amt }

/-- `Tello::turn_counter_clockwise`: `stick.lx = -amt`. -/
def turn_counter_clockwise [Neg α] (s : Stick α) (amt : α) : Stick α :=
  { s with lx := -amt }

/-- `Tello::hover`: replaces the stick state with `Stick::new((0,0),(0,0))`. -/
def hover [Zero α] (_s : Stick α) : Stick α := { rx := 0, ry := 0, lx := 0, ly := 0 }

end Tello

/-- `messages.rs`: `logRecNewMVO`. -/
def logRecNewMVO : Nat := 0x001d
/-- `messages.rs`: `logRecIMU`. -/
def logRecIMU : Nat := 0x0800

/-- `messages.rs`: MVO flags-byte bit masks. -/
def logValidVelX : Nat := 0x01
def logValidVelY : Nat := 0x02
def logValidVelZ : Nat := 0x04
def logValidPosY : Nat := 0x10
def logValidPosX : Nat := 0x20
def logValidPosZ : Nat := 0x40

/-- `utils::get_u16` / `_u16`: little-endian `u16` from two indexed bytes;
`none` models the index panic. -/
def get_u16 (buff : List Nat) (lo hi : Nat) : Option Nat :=
  if lo < buff.length ∧ hi < buff.length then
    some ((buff.getD lo 0 + ((buff.getD hi 0) <<< 8)) % 65536)
  else none

/-- `utils::get_i16` / `_i16`: the same pattern reinterpreted as `i16`. -/
def get_i16 (buff : List Nat) (lo hi : Nat) : Option Int :=
  if lo < buff.length ∧ hi < buff.length then
    some (i16OfBits ((buff.getD lo 0 + ((buff.getD hi 0) <<< 8)) % 65536))
  else none

/-- `utils::decode_buffer`: XOR every byte of `data[position..]` with
`xor_val`, stopping after `rec_len` bytes or at the end of `data`. -/
def decode_buffer (data : List Nat) (xor_val position rec_len : Nat) : List Nat :=
  ((data.drop position).take rec_len).map fun b => b ^^^ xor_val

/-- `utils::bytes_to_f32` reads four little-endian bytes and reinterprets
them as an `f32`.  Floating point is outside the embedding, so the raw
32-bit little-endian pattern is returned; the claims under verification
depend only on which optional fields get populated, never on interpreted
float values.  `none` models the `Err` return (`index + 3 >= buff.len()`),
which every caller turns into a panic via `expect`. -/
def bytes_to_f32 (buff : List Nat) (index : Nat) : Option Nat :=
  if index + 3 < buff.length then
    some (buff.getD index 0 + ((buff.getD (index + 1) 0) <<< 8)
      + ((buff.getD (index + 2) 0) <<< 16) + ((buff.getD (index + 3) 0) <<< 24))
  else none

/-- `utils::Vec3` with `f32` components kept as raw 32-bit patterns. -/
structure Vec3 where
  x : Nat
  y : Nat
  z : Nat
deriving Repr, DecidableEq

/-- `messages.rs`: `struct MVOData` (velocities `i16`, position `f32`
patterns). -/
structure MVOData where
  position : Option Vec3
  vx : Option Int
  vy : Option Int
  vz : Option Int
deriving Repr, DecidableEq

/-- `messages.rs`: `struct IMUData`.  The source stores roll/pitch/yaw
produced from the quaternion by the pure `f64` trigonometry of
`utils::quat_to_euler_deg`; floating point being outside the embedding,
the raw little-endian `f32` patterns of the quaternion are kept instead,
together with the integer temperature. -/
structure IMUData where
  qw : Nat
  qx : Nat
  qy : Nat
  qz : Nat
  temperature : Int
deriving Repr, DecidableEq

/-- Wrapping `i16` negation (`-x` on an `i16`; `-(-32768)` wraps). -/
def negI16 (x : Int) : Int :=
  i16OfBits (((-x) % (65536 : Int)).toNat)

/-- The `logRecNewMVO` branch of `LogData::new`, as a function of the whole
payload `data`, the record position `pos`, the record length `recLen`, the
XOR key and the current `mvo` value; returns the new `mvo` value, or `none`
for a panic.  NOTE: the flags byte is `data[offset + 76]` with
`offset = 10` — the RAW payload byte at the absolute index 86, not a byte
of the XOR-decoded record `xorBuf`; the field values themselves are read
from `xorBuf`. -/
def mvoDecode (data : List Nat) (pos recLen xorVal : Nat)
    (prior : Option MVOData) : Option (Option MVOData) :=
  let xorBuf := decode_buffer data xorVal pos recLen
  let offset := 10
  if offset + 76 < data.length then
    let flags := data.getD (offset + 76) 0
    let vxP : Option (Option Int) :=
      if flags &&& logValidVelX ≠ 0 then
        (get_i16 xorBuf (offset + 2) (offset + 3)).map some
      else some none
    let vyP : Option (Option Int) :=
      if flags &&& logValidVelY ≠ 0 then
        (get_i16 xorBuf (offset + 4) (offset + 5)).map some
      else some none
    let vzP : Option (Option Int) :=
      if flags &&& logValidVelZ ≠ 0 then
        (get_i16 xorBuf (offset + 6) (offset + 7)).map fun v => some (negI16 v)
      else some none
    let posP : Option (Option Vec3) :=
      if flags &&& logValidPosY ≠ 0 ∧ flags &&& logValidPosX ≠ 0
          ∧ flags &&& logValidPosZ ≠ 0 then
        match bytes_to_f32 xorBuf (offset + 8), bytes_to_f32 xorBuf (offset + 12),
            bytes_to_f32 xorBuf (offset + 16) with
        | some py, some px, some pz => some (some ⟨px, py, pz⟩)
        | _, _, _ => none
      else some none
    match vxP, vyP, vzP, posP with
    | some vx, some vy, some vz, some position =>
      if vx ≠ none ∨ vy ≠ none ∨ vz ≠ none ∨ position ≠ none then
        some (some { vx := vx, vy := vy, vz := vz, position := position })
      else some prior
    | _, _, _, _ => none
  else none

/-- Modelled from the spec: the NewMVO decoder as §4.4 of the spec words
it — "at body offset 76 of the record lies a flags byte", the body being
"obfuscated by XORing every byte of the record with the key before
decoding", so the flags byte is `xorBuf[10 + 76]` of the deobfuscated
record.  Everything else is as in `mvoDecode`.  Used to compare the
specified behaviour against the source's. -/
def mvoDecodeSpec (data : List Nat) (pos recLen xorVal : Nat)
    (prior : Option MVOData) : Option (Option MVOData) :=
  let xorBuf := decode_buffer data xorVal pos recLen
  let offset := 10
  if offset + 76 < xorBuf.length then
    let flags := xorBuf.getD (offset + 76) 0
    let vxP : Option (Option Int) :=
      if flags &&& logValidVelX ≠ 0 then
        (get_i16 xorBuf (offset + 2) (offset + 3)).map some
      else some none
    let vyP : Option (Option Int) :=
      if flags &&& logValidVelY ≠ 0 then
        (get_i16 xorBuf (offset + 4) (offset + 5)).map some
      else some none
    let vzP : Option (Option Int) :=
      if flags &&& logValidVelZ ≠ 0 then
        (get_i16 xorBuf (offset + 6) (offset + 7)).map fun v => some (negI16 v)
      else some none
    let posP : Option (Option Vec3) :=
      if flags &&& logValidPosY ≠ 0 ∧ flags &&& logValidPosX ≠ 0
          ∧ flags &&& logValidPosZ ≠ 0 then
        match bytes_to_f32 xorBuf (offset + 8), bytes_to_f32 xorBuf (offset + 12),
            bytes_to_f32 xorBuf (offset + 16) with
        | some py, some px, some pz => some (some ⟨px, py, pz⟩)
        | _, _, _ => none
      else some none
    match vxP, vyP, vzP, posP with
    | some vx, some vy, some vz, some position =>
      if vx ≠ none ∨ vy ≠ none ∨ vz ≠ none ∨ position ≠ none then
        some (some { vx := vx, vy := vy, vz := vz, position := position })
      else some prior
    | _, _, _, _ => none
  else none

/-- The `logRecIMU` branch of `LogData::new`: quaternion patterns at record
offsets 58/62/66/70 of the XOR-decoded record and the temperature
(`get_u16(xorBuf, 116, 117) / 100` as `i16`); `none` for a panic. -/
def imuDecode (data : List Nat) (pos recLen xorVal : Nat) : Option IMUData :=
  let xorBuf := decode_buffer data xorVal pos recLen
  let offset := 10
  match bytes_to_f32 xorBuf (offset + 48), bytes_to_f32 xorBuf (offset + 52),
      bytes_to_f32 xorBuf (offset + 56), bytes_to_f32 xorBuf (offset + 60),
      get_u16 xorBuf (offset + 106) (offset + 107) with
  | some qw, some qx, some qy, some qz, some t =>
    some { qw := qw, qx := qx, qy := qy, qz := qz,
           temperature := i16OfBits ((t / 100) % 65536) }
  | _, _, _, _, _ => none

/-- `usize` modulus. -/
def USIZE : Nat := 2 ^ 64

/-- Wrapping `usize` subtraction `a - b` (for `b ≤ USIZE`), as in the loop
bound `data.len() - 6` of `LogData::new`, which underflows for payloads
shorter than 6 bytes. -/
def usizeSub (a b : Nat) : Nat := (a + USIZE - b) % USIZE

/-- The record length field at record position `p`:
`get_u16(data, p+1, p+2)` when in bounds. -/
def recLenAt (data : List Nat) (p : Nat) : Nat :=
  (data.getD (p + 1) 0 + ((data.getD (p + 2) 0) <<< 8)) % 65536

/-- The record type field at record position `p`:
`get_u16(data, p+4, p+5)` when in bounds. -/
def recTypeAt (data : List Nat) (p : Nat) : Nat :=
  (data.getD (p + 4) 0 + ((data.getD (p + 5) 0) <<< 8)) % 65536

/-- The mutable state of the `LogData::new` loop: the cursor and the two
accumulated optional records. -/
structure LogState where
  pos : Nat
  imu : Option IMUData
  mvo : Option MVOData
deriving Repr, DecidableEq

/-- Outcome of one iteration of the `LogData::new` loop body. -/
inductive LogStep where
  | next (s : LogState)
  | brk (s : LogState)
  | panic
deriving Repr, DecidableEq

/-- One iteration of the `LogData::new` loop body (entered with the guard
`pos < data.len() - 6` already true): check the 0x55 separator (`brk` on
mismatch), read the record length, type and XOR key, decode MVO/IMU
records, skip unknown types, and advance the cursor by the record
length.  Any out-of-bounds read or failed `expect` is `panic`. -/
def logDataStep (data : List Nat) (s : LogState) : LogStep :=
  if s.pos < data.length then
    if data.getD s.pos 0 ≠ 85 then .brk s
    else
      match get_u16 data (s.pos + 1) (s.pos + 2),
          get_u16 data (s.pos + 4) (s.pos + 5) with
      | some recLen, some logRecType =>
        if s.pos + 6 < data.length then
          let xorVal := data.getD (s.pos + 6) 0
          if logRecType = logRecNewMVO then
            match mvoDecode data s.pos recLen xorVal s.mvo with
            | some mvo' => .next ⟨s.pos + recLen, s.imu, mvo'⟩
            | none => .panic
          else if logRecType = logRecIMU then
            match imuDecode data s.pos recLen xorVal with
            | some imu' => .next ⟨s.pos + recLen, some imu', s.mvo⟩
            | none => .panic
          else .next ⟨s.pos + recLen, s.imu, s.mvo⟩
        else .panic
      | _, _ => .panic
  else .panic

/-- Result of running the `LogData::new` loop: the final `imu`/`mvo` pair,
a panic, or fuel exhaustion (the source loop genuinely need not
terminate, so the model is fuel-indexed; fuel is consumed only by
iterations that pass the guard). -/
inductive LogResult where
  | ok (imu : Option IMUData) (mvo : Option MVOData)
  | panic
  | outOfFuel
deriving Repr, DecidableEq

/-- The `while pos < data.len() - 6` loop of `LogData::new`; the bound is
the wrapping `usize` subtraction. -/
def logDataLoop (data : List Nat) : Nat → LogState → LogResult
  | fuel, s =>
    if s.pos < usizeSub data.length 6 then
      match fuel with
      | 0 => .outOfFuel
      | fuel + 1 =>
        match logDataStep data s with
        | .next s' => logDataLoop data fuel s'
        | .brk s' => .ok s'.imu s'.mvo
        | .panic => .panic
    else .ok s.imu s.mvo

/-- `LogData::new`: payloads shorter than 2 bytes return `{imu: None,
mvo: None}` immediately; otherwise the loop starts at `pos = 1`. -/
def LogData.new (fuel : Nat) (data : List Nat) : LogResult :=
  if data.length < 2 then .ok none none
  else logDataLoop data fuel ⟨1, none, none⟩

/-! ## Claim theorems -/

/-- The re-encoding of the decoded golden takeoff frame, as the source
produces it: byte 4 has lost the 0x40 to-drone bit (the decoder's
`(buff[4] & 0x40) == 1` comparison is never true), and the trailing CRC-16
differs accordingly. -/
def takeoffReencoded : List Nat := [204, 88, 0, 124, 40, 84, 0, 123, 0, 252, 92]

/-- Claim C1: re-encoding the decoded packet should reproduce every valid
buffer byte for byte, including the direction-flag bits of byte 4 and both
CRCs.  The golden `do_takeoff(123)` frame is a valid buffer (header 0xCC,
size field equal to its length, correct CRC-8 and CRC-16), yet
`to_buffer(from_buffer(b))` drops the 0x40 direction bit of byte 4 and
recomputes a different CRC-16: `from_buffer` decodes the direction flags
with `(buff[4] & 0x40) == 1` / `(buff[4] & 0x80) == 1`, comparisons that
can never hold. -/
theorem takeoff_frame_roundtrip_divergence :
    (takeoffFrame.getD 0 0 = MSG_HDR
      ∧ pktSzOf takeoffFrame = takeoffFrame.length
      ∧ takeoffFrame.getD 3 0 = calculate_crc8 (takeoffFrame.take 3)
      ∧ takeoffFrame.getD 10 0 * 256 + takeoffFrame.getD 9 0
          = calculate_crc16 (takeoffFrame.take 9))
    ∧ (TelloPacket.from_buffer takeoffFrame).map TelloPacket.to_buffer
        = some takeoffReencoded
    ∧ takeoffReencoded ≠ takeoffFrame := by decide

/-- Claim C5: the flight-status height field should be the little-endian
signed 16-bit value `pl[0] + 256*pl[1]`; the source's
`(pl[0] as i16) + (pl[1] as i16) << 8` parses as `((pl[0]+pl[1]) << 8)`,
so for payload `[1, 0, 0, ...]` it yields 256 instead of 1. -/
theorem flightData_height_precedence_bug :
    (FlightData.new (1 :: List.replicate 23 0)).map FlightData.height = some 256
      ∧ (256 : Int) ≠ 1 := by decide

/-- Claim C6: decoding fails (no packet; the source panics) for buffers
shorter than 11 bytes and for buffers shorter than their encoded size
field, while any buffer that is long enough decodes to a packet regardless
of its CRC bytes — `from_buffer` never rejects a frame for a CRC mismatch,
it only logs it. -/
theorem from_buffer_error_behavior :
    (∀ b : List Nat, b.length < 11 → TelloPacket.from_buffer b = none)
    ∧ (∀ b : List Nat, b.length < pktSzOf b → TelloPacket.from_buffer b = none)
    ∧ (∀ b : List Nat, 11 ≤ pktSzOf b → pktSzOf b ≤ b.length →
        (TelloPacket.from_buffer b).isSome = true) := by
  refine ⟨?_, ?_, ?_⟩ <;> intro b
  · intro h
    unfold TelloPacket.from_buffer MIN_PKT_SZ
    rw [if_neg]
    omega
  · intro h
    unfold TelloPacket.from_buffer MIN_PKT_SZ
    rw [if_neg]
    omega
  · intro h1 h2
    unfold TelloPacket.from_buffer MIN_PKT_SZ
    rw [if_pos ⟨by omega, h1, h2⟩]
    rfl

/-- Witness for C6: a 3-byte buffer fails, a 10-byte buffer whose size
field says 11 fails, and an 11-byte frame with zeroed CRC bytes (both CRCs
mismatched) still decodes to a packet. -/
theorem from_buffer_error_behavior_witness :
    TelloPacket.from_buffer [204, 88, 0] = none
    ∧ TelloPacket.from_buffer [204, 88, 0, 124, 104, 84, 0, 123, 0, 222] = none
    ∧ (TelloPacket.from_buffer [204, 88, 0, 0, 104, 84, 0, 123, 0, 0, 0]).isSome
        = true :=
  ⟨from_buffer_error_behavior.1 [204, 88, 0] (by decide),
   from_buffer_error_behavior.2.1 [204, 88, 0, 124, 104, 84, 0, 123, 0, 222]
     (by decide),
   from_buffer_error_behavior.2.2 [204, 88, 0, 0, 104, 84, 0, 123, 0, 0, 0]
     (by decide) (by decide)⟩

/-- Claim C8: the stick-sender mapping `Tello::joy` (with `min = 364`,
`max = 1684`, `smooth = true`) clamps whatever the float computation and
`i16` cast produce to `[min, max]`, so the raw stick value lies in
`[364, 1684]` for every input — in particular for every axis value in
`[-1, +1]`. -/
theorem joy_smooth_in_rc_range (y : Int) :
    RC_VAL_MIN ≤ Tello.joySmoothClamp y RC_VAL_MIN RC_VAL_MAX
      ∧ Tello.joySmoothClamp y RC_VAL_MIN RC_VAL_MAX ≤ RC_VAL_MAX := by
  simp only [Tello.joySmoothClamp, RC_VAL_MIN, RC_VAL_MAX]
  split_ifs <;> omega

/-- Claim C9: each of the eight directional commands writes exactly its one
named axis of the stick vector (`amt` for the positive direction, `-amt`
for its opposite) and leaves the other three axes unchanged, and `hover`
zeroes all four axes. -/
theorem stick_commands_write_single_axis {α : Type} [Neg α] [Zero α]
    (s : Stick α) (amt : α) :
    ((Tello.forward s amt).ry = amt ∧ (Tello.forward s amt).rx = s.rx
      ∧ (Tello.forward s amt).lx = s.lx ∧ (Tello.forward s amt).ly = s.ly)
    ∧ ((Tello.backward s amt).ry = -amt ∧ (Tello.backward s amt).rx = s.rx
      ∧ (Tello.backward s amt).lx = s.lx ∧ (Tello.backward s amt).ly = s.ly)
    ∧ ((Tello.right s amt).rx = amt ∧ (Tello.right s amt).ry = s.ry
      ∧ (Tello.right s amt).lx = s.lx ∧ (Tello.right s amt).ly = s.ly)
    ∧ ((Tello.left s amt).rx = -amt ∧ (Tello.left s amt).ry = s.ry
      ∧ (Tello.left s amt).lx = s.lx ∧ (Tello.left s amt).ly = s.ly)
    ∧ ((Tello.up s amt).ly = amt ∧ (Tello.up s amt).rx = s.rx
      ∧ (Tello.up s amt).ry = s.ry ∧ (Tello.up s amt).lx = s.lx)
    ∧ ((Tello.down s amt).ly = -amt ∧ (Tello.down s amt).rx = s.rx
      ∧ (Tello.down s amt).ry = s.ry ∧ (Tello.down s amt).lx = s.lx)
    ∧ ((Tello.turn_clockwise s amt).lx = amt
      ∧ (Tello.turn_clockwise s amt).rx = s.rx
      ∧ (Tello.turn_clockwise s amt).ry = s.ry
      ∧ (Tello.turn_clockwise s amt).ly = s.ly)
    ∧ ((Tello.turn_counter_clockwise s amt).lx = -amt
      ∧ (Tello.turn_counter_clockwise s amt).rx = s.rx
      ∧ (Tello.turn_counter_clockwise s amt).ry = s.ry
      ∧ (Tello.turn_counter_clockwise s amt).ly = s.ly)
    ∧ ((Tello.hover s).rx = 0 ∧ (Tello.hover s).ry = 0
      ∧ (Tello.hover s).lx = 0 ∧ (Tello.hover s).ly = 0) :=
  ⟨⟨rfl, rfl, rfl, rfl⟩, ⟨rfl, rfl, rfl, rfl⟩, ⟨rfl, rfl, rfl, rfl⟩,
   ⟨rfl, rfl, rfl, rfl⟩, ⟨rfl, rfl, rfl, rfl⟩, ⟨rfl, rfl, rfl, rfl⟩,
   ⟨rfl, rfl, rfl, rfl⟩, ⟨rfl, rfl, rfl, rfl⟩, ⟨rfl, rfl, rfl, rfl⟩⟩

/-- Claim C10: a file-data payload of 13 bytes or fewer makes
`FileChunk::new` call `utils::fatal`, which exits the whole process;
no chunk value is produced, so a single short file-data datagram reaching
`process_packet` aborts the program rather than being logged and
dropped. -/
theorem fileChunk_new_short_payload_fatal (pl : List Nat)
    (h : pl.length ≤ 13) : FileChunk.new pl = none := by
  simp [FileChunk.new, h]

/-- Witness for C10 at a concrete 13-byte payload. -/
theorem fileChunk_new_short_payload_fatal_witness :
    ([0, 0, 0, 0, 0, 0, 0, 0, 0, 0, 0, 0, 0] : List Nat).length ≤ 13
      ∧ FileChunk.new [0, 0, 0, 0, 0, 0, 0, 0, 0, 0, 0, 0, 0] = none :=
  ⟨by decide, fileChunk_new_short_payload_fatal _ (by decide)⟩

/-! ## File reassembly invariants (claim C2) -/

theorem list_set_getD {α : Type} (l : List α) (i : Nat) (d : α)
    (h : i < l.length) : l.set i (l.getD i d) = l := by
  induction l generalizing i with
  | nil => simp at h
  | cons a t ih =>
    cases i with
    | zero => simp
    | succ n =>
      simp only [List.getD_cons_succ, List.set_cons_succ]
      exact congrArg (List.cons a) (ih n (by simpa using h))

theorem sum_map_set_add {α : Type} (f : α → Nat) (d : α) :
    ∀ (l : List α) (i : Nat) (x : α), i < l.length →
      ((l.set i x).map f).sum + f (l.getD i d) = (l.map f).sum + f x
  | [], i, _, h => by simp at h
  | a :: t, 0, x, _ => by
    simp only [List.set_cons_zero, List.map_cons, List.sum_cons,
      List.getD_cons_zero]
    omega
  | a :: t, i + 1, x, h => by
    simp only [List.set_cons_succ, List.map_cons, List.sum_cons,
      List.getD_cons_succ]
    have := sum_map_set_add f d t i x (by simpa using h)
    omega

theorem pieceLenSum_new : pieceLenSum FilePiece.new = 0 := by decide

theorem chunkLenSum_grown (f : FileInternal) (c : FileChunk) :
    ((grownPieces f c).map pieceLenSum).sum = chunkLenSum f := by
  unfold grownPieces chunkLenSum
  simp [List.map_replicate, pieceLenSum_new, List.sum_replicate]

theorem length_grown (f : FileInternal) (c : FileChunk) :
    c.piece_num < (grownPieces f c).length := by
  unfold grownPieces
  simp only [List.length_append, List.length_replicate]
  omega

/-- The inductive invariant of the reassembly state: the accumulator equals
the (u32) sum of the stored chunk lengths, and every piece has exactly 8
chunk slots. -/
def FileInvariant (f : FileInternal) : Prop :=
  f.accum_size = chunkLenSum f % U32 ∧ ∀ p ∈ f.pieces, p.chunks.length = 8

theorem grown_chunks_length (f : FileInternal) (c : FileChunk)
    (h : ∀ p ∈ f.pieces, p.chunks.length = 8) :
    ∀ p ∈ grownPieces f c, p.chunks.length = 8 := by
  intro p hp
  rcases List.mem_append.mp hp with hl | hr
  · exact h p hl
  · rw [List.eq_of_mem_replicate hr]; decide

theorem getD_mem {α : Type} (l : List α) (i : Nat) (d : α) (h : i < l.length) :
    l.getD i d ∈ l := by
  rw [List.getD_eq_getElem?_getD, List.getElem?_eq_getElem h]
  exact List.getElem_mem h

theorem pieceLenSum_set (p : FilePiece) (idx : Nat) (c : FileChunk)
    (hidx : idx < p.chunks.length) (hnone : p.chunks.getD idx none = none) :
    pieceLenSum
      { num_chunks := p.num_chunks + 1, chunks := p.chunks.set idx (some c) }
      = pieceLenSum p + c.chunk_len % U32 := by
  have h := sum_map_set_add chunkLenOf none p.chunks idx (some c) hidx
  rw [hnone] at h
  have h0 : chunkLenOf none = 0 := rfl
  have h1 : chunkLenOf (some c) = c.chunk_len % U32 := rfl
  rw [h0, h1] at h
  show ((p.chunks.set idx (some c)).map chunkLenOf).sum
    = (p.chunks.map chunkLenOf).sum + c.chunk_len % U32
  omega

theorem processFileData_invariant (f : FileInternal) (c : FileChunk)
    (h : FileInvariant f) : FileInvariant (processFileData f c) := by
  obtain ⟨hacc, hlen⟩ := h
  have hpn := length_grown f c
  have hgsum := chunkLenSum_grown f c
  have hglen := grown_chunks_length f c hlen
  have htp := hglen _ (getD_mem (grownPieces f c) c.piece_num FilePiece.new hpn)
  simp only [processFileData]
  split_ifs with hstore
  · obtain ⟨hn8, hslot⟩ := hstore
    have hidx : c.chunk_num &&& 7 <
        ((grownPieces f c).getD c.piece_num FilePiece.new).chunks.length := by
      rw [htp]
      have h7 : c.chunk_num &&& 7 ≤ 7 := Nat.and_le_right
      omega
    have hps := pieceLenSum_set ((grownPieces f c).getD c.piece_num FilePiece.new)
      (c.chunk_num &&& 7) c hidx hslot
    have hfile := sum_map_set_add pieceLenSum FilePiece.new
      (grownPieces f c) c.piece_num
      { num_chunks := ((grownPieces f c).getD c.piece_num FilePiece.new).num_chunks + 1
        chunks := ((grownPieces f c).getD c.piece_num FilePiece.new).chunks.set
          (c.chunk_num &&& 7) (some c) }
      hpn
    constructor
    · show (f.accum_size + c.chunk_len % U32) % U32
        = (((grownPieces f c).set c.piece_num
            { num_chunks := ((grownPieces f c).getD c.piece_num FilePiece.new).num_chunks + 1
              chunks := ((grownPieces f c).getD c.piece_num FilePiece.new).chunks.set
                (c.chunk_num &&& 7) (some c) }).map pieceLenSum).sum % U32
      rw [hacc]
      unfold chunkLenSum at hgsum ⊢
      unfold U32 at *
      omega
    · intro p hp
      rcases List.mem_or_eq_of_mem_set hp with hmem | rfl
      · exact hglen p hmem
      · show (((grownPieces f c).getD c.piece_num FilePiece.new).chunks.set
          (c.chunk_num &&& 7) (some c)).length = 8
        rw [List.length_set]
        exact htp
  · constructor
    · show f.accum_size = ((grownPieces f c).map pieceLenSum).sum % U32
      rw [hgsum]
      exact hacc
    · exact hglen

theorem foldl_processFileData_invariant (f0 : FileInternal)
    (h : FileInvariant f0) (cs : List FileChunk) :
    FileInvariant (cs.foldl processFileData f0) := by
  induction cs generalizing f0 with
  | nil => exact h
  | cons c cs ih => exact ih _ (processFileData_invariant f0 c h)

theorem processFileData_occupied (f : FileInternal) (c : FileChunk)
    (h : slotOccupied f c) : processFileData f c = f := by
  obtain ⟨hpn, hsome⟩ := h
  have hrep : c.piece_num + 1 - f.pieces.length = 0 := by omega
  have hgr : grownPieces f c = f.pieces := by
    unfold grownPieces
    rw [hrep]
    simp
  have hcond : ¬ ((f.pieces.getD c.piece_num FilePiece.new).num_chunks < 8
      ∧ (f.pieces.getD c.piece_num FilePiece.new).chunks.getD
          (c.chunk_num &&& 7) none = none) := by
    rintro ⟨-, hnone⟩
    rw [hnone] at hsome
    simp at hsome
  simp only [processFileData, hgr]
  rw [if_neg hcond]

/-- Claim C2: starting from a freshly parsed `FileInternal` and processing
any sequence of file-data chunks, (a) `accum_size` equals the u32 sum of
`chunk_len` over all stored chunks, (b) a chunk whose slot
(`chunk_num mod 8` of its piece) is already occupied leaves the state —
stored chunk, `num_chunks` and `accum_size` — entirely unchanged, and
(c) whenever the save step runs (`saveRuns`), the accumulated size equals
the expected size. -/
theorem fileData_reassembly_invariants (pl : List Nat) (f0 : FileInternal)
    (h0 : FileInternal.new pl = some f0) (cs : List FileChunk) :
    ((cs.foldl processFileData f0).accum_size
        = chunkLenSum (cs.foldl processFileData f0) % U32)
    ∧ (∀ c : FileChunk, slotOccupied (cs.foldl processFileData f0) c →
        processFileData (cs.foldl processFileData f0) c
          = cs.foldl processFileData f0)
    ∧ (∀ c : FileChunk, saveRuns (cs.foldl processFileData f0) c = true →
        (processFileData (cs.foldl processFileData f0) c).accum_size
          = (processFileData (cs.foldl processFileData f0) c).expected_size) := by
  have hf0 : FileInvariant f0 := by
    unfold FileInternal.new at h0
    split_ifs at h0 with h7
    cases h0
    exact ⟨rfl, by intro p hp; simp at hp⟩
  refine ⟨(foldl_processFileData_invariant f0 hf0 cs).1, ?_, ?_⟩
  · intro c hc
    exact processFileData_occupied _ c hc
  · intro c hc
    have hexp : (processFileData (cs.foldl processFileData f0) c).expected_size
        = (cs.foldl processFileData f0).expected_size := by
      simp only [processFileData]
      split_ifs <;> rfl
    rw [hexp]
    unfold saveRuns at hc
    simp only [beq_iff_eq] at hc
    exact hc

/-- Witness for C2: a file of expected size 13 receives one 13-byte chunk;
the invariant holds, a duplicate of the stored chunk leaves the state
unchanged, and the save condition implies size agreement. -/
theorem fileData_reassembly_invariants_witness :
    ((([⟨5, 0, 0, 13, []⟩] : List FileChunk).foldl processFileData
        ⟨5, .FtJPEG, 13, 0, []⟩).accum_size
      = chunkLenSum (([⟨5, 0, 0, 13, []⟩] : List FileChunk).foldl
          processFileData ⟨5, .FtJPEG, 13, 0, []⟩) % U32)
    ∧ processFileData (([⟨5, 0, 0, 13, []⟩] : List FileChunk).foldl
          processFileData ⟨5, .FtJPEG, 13, 0, []⟩) ⟨5, 0, 0, 13, []⟩
        = ([⟨5, 0, 0, 13, []⟩] : List FileChunk).foldl processFileData
            ⟨5, .FtJPEG, 13, 0, []⟩
    ∧ (processFileData (([⟨5, 0, 0, 13, []⟩] : List FileChunk).foldl
          processFileData ⟨5, .FtJPEG, 13, 0, []⟩) ⟨5, 0, 0, 13, []⟩).accum_size
        = (processFileData (([⟨5, 0, 0, 13, []⟩] : List FileChunk).foldl
            processFileData ⟨5, .FtJPEG, 13, 0, []⟩) ⟨5, 0, 0, 13, []⟩).expected_size := by
  have h := fileData_reassembly_invariants [1, 13, 0, 0, 0, 5, 0]
    ⟨5, .FtJPEG, 13, 0, []⟩ (by decide) [⟨5, 0, 0, 13, []⟩]
  exact ⟨h.1, h.2.1 _ (by decide), h.2.2 _ (by decide)⟩

/-! ## Stick-update frame layout (claim C7) -/

theorem lor_shiftLeft_eq_add (a b k : Nat) (h : a < 2 ^ k) :
    a ||| (b <<< k) = a + b * 2 ^ k := by
  rw [Nat.shiftLeft_eq, Nat.lor_comm, Nat.mul_comm b (2 ^ k),
    ← Nat.mul_add_lt_is_or h b]
  omega

theorem and_2047_eq_mod (x : Nat) : x &&& 2047 = x % 2 ^ 11 :=
  Nat.and_pow_two_sub_one_eq_mod x 11

theorem bytes6_recompose (p : Nat) (h : p < 2 ^ 48) :
    p % 256 + (p >>> 8) % 256 * 2 ^ 8 + (p >>> 16) % 256 * 2 ^ 16
      + (p >>> 24) % 256 * 2 ^ 24 + (p >>> 32) % 256 * 2 ^ 32
      + (p >>> 40) % 256 * 2 ^ 40 = p := by
  simp only [Nat.shiftRight_eq_div_pow]
  omega

theorem stick_packed_value (a b c d : Nat) (s : Bool)
    (ha : a < 2048) (hb : b < 2048) (hc : c < 2048) (hd : d < 2048) :
    (if s then (((a ||| b <<< 11) ||| c <<< 22) ||| d <<< 33) ||| 1 <<< 44
     else ((a ||| b <<< 11) ||| c <<< 22) ||| d <<< 33)
    = a + b * 2 ^ 11 + c * 2 ^ 22 + d * 2 ^ 33
      + (if s then 1 else 0) * 2 ^ 44 := by
  have e1 := lor_shiftLeft_eq_add a b 11 (by omega)
  rw [e1]
  have e2 := lor_shiftLeft_eq_add (a + b * 2 ^ 11) c 22 (by omega)
  rw [e2]
  have e3 := lor_shiftLeft_eq_add (a + b * 2 ^ 11 + c * 2 ^ 22) d 33 (by omega)
  rw [e3]
  cases s
  · simp
  · have e4 := lor_shiftLeft_eq_add
      (a + b * 2 ^ 11 + c * 2 ^ 22 + d * 2 ^ 33) 1 44 (by omega)
    simp only [if_true]
    rw [e4]

/-- Claim C7: the stick-update frame has an 11-byte payload (frame length
22), message id 0x0050 and sequence 0; bytes 9..14 are the little-endian
six-byte packed-axes field whose value places `js_int16_to_tello rx`
(masked to 11 bits) in bits 0-10, `ry` in bits 11-21, `ly` in bits 22-32,
`lx` in bits 33-43 and the sports-mode flag in bit 44; bytes 15..17 are
hour/minute/second and bytes 18..19 the little-endian milliseconds. -/
theorem send_stick_update_layout (rx ry lx ly : Int) (sm : Bool)
    (hour minute second millis : Nat) (hms : millis < 65536) :
    (send_stick_update rx ry lx ly sm hour minute second millis).length = 22
    ∧ (send_stick_update rx ry lx ly sm hour minute second millis).getD 5 0
        = 0x50
    ∧ (send_stick_update rx ry lx ly sm hour minute second millis).getD 6 0 = 0
    ∧ (send_stick_update rx ry lx ly sm hour minute second millis).getD 7 0 = 0
    ∧ (send_stick_update rx ry lx ly sm hour minute second millis).getD 8 0 = 0
    ∧ (send_stick_update rx ry lx ly sm hour minute second millis).getD 9 0
        + (send_stick_update rx ry lx ly sm hour minute second millis).getD 10 0
          * 2 ^ 8
        + (send_stick_update rx ry lx ly sm hour minute second millis).getD 11 0
          * 2 ^ 16
        + (send_stick_update rx ry lx ly sm hour minute second millis).getD 12 0
          * 2 ^ 24
        + (send_stick_update rx ry lx ly sm hour minute second millis).getD 13 0
          * 2 ^ 32
        + (send_stick_update rx ry lx ly sm hour minute second millis).getD 14 0
          * 2 ^ 40
      = js_int16_to_tello rx % 2 ^ 11
        + js_int16_to_tello ry % 2 ^ 11 * 2 ^ 11
        + js_int16_to_tello ly % 2 ^ 11 * 2 ^ 22
        + js_int16_to_tello lx % 2 ^ 11 * 2 ^ 33
        + (if sm then 1 else 0) * 2 ^ 44
    ∧ (send_stick_update rx ry lx ly sm hour minute second millis).getD 15 0
        = hour
    ∧ (send_stick_update rx ry lx ly sm hour minute second millis).getD 16 0
        = minute
    ∧ (send_stick_update rx ry lx ly sm hour minute second millis).getD 17 0
        = second
    ∧ (send_stick_update rx ry lx ly sm hour minute second millis).getD 18 0
        = millis % 256
    ∧ (send_stick_update rx ry lx ly sm hour minute second millis).getD 19 0
        = millis / 256 := by
  have hval := stick_packed_value
    (js_int16_to_tello rx &&& 2047) (js_int16_to_tello ry &&& 2047)
    (js_int16_to_tello ly &&& 2047) (js_int16_to_tello lx &&& 2047) sm
    (by have := Nat.and_le_right (n := js_int16_to_tello rx) (m := 2047); omega)
    (by have := Nat.and_le_right (n := js_int16_to_tello ry) (m := 2047); omega)
    (by have := Nat.and_le_right (n := js_int16_to_tello ly) (m := 2047); omega)
    (by have := Nat.and_le_right (n := js_int16_to_tello lx) (m := 2047); omega)
  have hbound :
      (if sm then (((js_int16_to_tello rx &&& 2047)
            ||| (js_int16_to_tello ry &&& 2047) <<< 11)
            ||| (js_int16_to_tello ly &&& 2047) <<< 22)
            ||| (js_int16_to_tello lx &&& 2047) <<< 33 ||| 1 <<< 44
       else (((js_int16_to_tello rx &&& 2047)
            ||| (js_int16_to_tello ry &&& 2047) <<< 11)
            ||| (js_int16_to_tello ly &&& 2047) <<< 22)
            ||| (js_int16_to_tello lx &&& 2047) <<< 33) < 2 ^ 48 := by
    rw [hval]
    have h1 : (js_int16_to_tello rx &&& 2047) < 2048 := by
      have := Nat.and_le_right (n := js_int16_to_tello rx) (m := 2047); omega
    have h2 : (js_int16_to_tello ry &&& 2047) < 2048 := by
      have := Nat.and_le_right (n := js_int16_to_tello ry) (m := 2047); omega
    have h3 : (js_int16_to_tello ly &&& 2047) < 2048 := by
      have := Nat.and_le_right (n := js_int16_to_tello ly) (m := 2047); omega
    have h4 : (js_int16_to_tello lx &&& 2047) < 2048 := by
      have := Nat.and_le_right (n := js_int16_to_tello lx) (m := 2047); omega
    have h5 : (if sm then (1 : Nat) else 0) ≤ 1 := by split_ifs <;> omega
    omega
  refine ⟨rfl, rfl, ?_, rfl, ?_, ?_, rfl, rfl, rfl, ?_, ?_⟩
  · show (MSG_SET_STICK >>> 8) % 256 = 0
    decide
  · show ((0 : Nat) >>> 8) % 256 = 0
    decide
  · have h1 : (send_stick_update rx ry lx ly sm hour minute second millis).getD 9 0
        + (send_stick_update rx ry lx ly sm hour minute second millis).getD 10 0
          * 2 ^ 8
        + (send_stick_update rx ry lx ly sm hour minute second millis).getD 11 0
          * 2 ^ 16
        + (send_stick_update rx ry lx ly sm hour minute second millis).getD 12 0
          * 2 ^ 24
        + (send_stick_update rx ry lx ly sm hour minute second millis).getD 13 0
          * 2 ^ 32
        + (send_stick_update rx ry lx ly sm hour minute second millis).getD 14 0
          * 2 ^ 40
        = (if sm then (((js_int16_to_tello rx &&& 2047)
              ||| (js_int16_to_tello ry &&& 2047) <<< 11)
              ||| (js_int16_to_tello ly &&& 2047) <<< 22)
              ||| (js_int16_to_tello lx &&& 2047) <<< 33 ||| 1 <<< 44
           else (((js_int16_to_tello rx &&& 2047)
              ||| (js_int16_to_tello ry &&& 2047) <<< 11)
              ||| (js_int16_to_tello ly &&& 2047) <<< 22)
              ||| (js_int16_to_tello lx &&& 2047) <<< 33) :=
      bytes6_recompose _ hbound
    rw [h1, hval, and_2047_eq_mod, and_2047_eq_mod, and_2047_eq_mod,
      and_2047_eq_mod]
  · show millis &&& 255 = millis % 256
    exact Nat.and_pow_two_sub_one_eq_mod millis 8
  · show (millis >>> 8) % 256 = millis / 256
    rw [Nat.shiftRight_eq_div_pow]
    have : millis / 2 ^ 8 < 256 := by omega
    omega

/-- Witness for C7 at the golden centred-stick frame inputs. -/
theorem send_stick_update_layout_witness :
    (3209 : Nat) < 65536
    ∧ ((send_stick_update 1024 1024 1024 1024 false 20 20 30 3209).length = 22
      ∧ (send_stick_update 1024 1024 1024 1024 false 20 20 30 3209).getD 5 0
          = 0x50
      ∧ (send_stick_update 1024 1024 1024 1024 false 20 20 30 3209).getD 6 0 = 0
      ∧ (send_stick_update 1024 1024 1024 1024 false 20 20 30 3209).getD 7 0 = 0
      ∧ (send_stick_update 1024 1024 1024 1024 false 20 20 30 3209).getD 8 0 = 0
      ∧ (send_stick_update 1024 1024 1024 1024 false 20 20 30 3209).getD 9 0
          + (send_stick_update 1024 1024 1024 1024 false 20 20 30 3209).getD 10 0
            * 2 ^ 8
          + (send_stick_update 1024 1024 1024 1024 false 20 20 30 3209).getD 11 0
            * 2 ^ 16
          + (send_stick_update 1024 1024 1024 1024 false 20 20 30 3209).getD 12 0
            * 2 ^ 24
          + (send_stick_update 1024 1024 1024 1024 false 20 20 30 3209).getD 13 0
            * 2 ^ 32
          + (send_stick_update 1024 1024 1024 1024 false 20 20 30 3209).getD 14 0
            * 2 ^ 40
        = js_int16_to_tello 1024 % 2 ^ 11
          + js_int16_to_tello 1024 % 2 ^ 11 * 2 ^ 11
          + js_int16_to_tello 1024 % 2 ^ 11 * 2 ^ 22
          + js_int16_to_tello 1024 % 2 ^ 11 * 2 ^ 33
          + (if false then 1 else 0) * 2 ^ 44
      ∧ (send_stick_update 1024 1024 1024 1024 false 20 20 30 3209).getD 15 0
          = 20
      ∧ (send_stick_update 1024 1024 1024 1024 false 20 20 30 3209).getD 16 0
          = 20
      ∧ (send_stick_update 1024 1024 1024 1024 false 20 20 30 3209).getD 17 0
          = 30
      ∧ (send_stick_update 1024 1024 1024 1024 false 20 20 30 3209).getD 18 0
          = 3209 % 256
      ∧ (send_stick_update 1024 1024 1024 1024 false 20 20 30 3209).getD 19 0
          = 3209 / 256) :=
  ⟨by decide,
   send_stick_update_layout 1024 1024 1024 1024 false 20 20 30 3209 (by decide)⟩

/-! ## LogData decoder termination (claim C3) -/

/-- The `LogData::new` loop never finishes on `data`, whatever the fuel. -/
def logDivergesOn (data : List Nat) : Prop :=
  ∀ fuel : Nat, LogData.new fuel data = .outOfFuel

theorem logDataLoop_fix (data : List Nat) (s : LogState)
    (hguard : s.pos < usizeSub data.length 6)
    (hstep : logDataStep data s = .next s) :
    ∀ fuel, logDataLoop data fuel s = .outOfFuel := by
  intro fuel
  induction fuel with
  | zero =>
    simp only [logDataLoop]
    rw [if_pos hguard]
  | succ n ih =>
    simp only [logDataLoop]
    rw [if_pos hguard, hstep]
    exact ih

/-- Claim C3 counterexample: the decoder does not always terminate, and it
does not stop immediately for every payload shorter than 7 bytes.  On
payload `[0,85,0,0,0,0,0,0]` the first record has length field 0, so the
loop body maps its state to itself while the guard stays true — the source
loop runs forever.  On payload `[0,85,0,0,0]` (5 bytes, cursor already
within 6 bytes of the end) the size guard `pos < data.len() - 6`
underflows, the loop is entered and the record-type read indexes past the
buffer — a panic, not an immediate stop. -/
theorem logData_nontermination_counterexample :
    logDivergesOn [0, 85, 0, 0, 0, 0, 0, 0]
    ∧ logDataStep [0, 85, 0, 0, 0, 0, 0, 0] ⟨1, none, none⟩
        = .next ⟨1, none, none⟩
    ∧ LogData.new 5 [0, 85, 0, 0, 0] = .panic := by
  refine ⟨?_, by decide, by decide⟩
  intro fuel
  unfold LogData.new
  rw [if_neg (by decide)]
  exact logDataLoop_fix _ _ (by decide) (by decide) fuel

theorem usizeSub6 (a : Nat) (h6 : 6 ≤ a) (h64 : a < 2 ^ 64) :
    usizeSub a 6 = a - 6 := by
  unfold usizeSub USIZE
  omega

theorem logDataStep_next (data : List Nat) (s s' : LogState)
    (h : logDataStep data s = .next s') :
    data.getD s.pos 0 = 85 ∧ s'.pos = s.pos + recLenAt data s.pos := by
  unfold logDataStep at h
  by_cases h0 : s.pos < data.length
  · rw [if_pos h0] at h
    by_cases hsep : data.getD s.pos 0 ≠ 85
    · rw [if_pos hsep] at h
      simp at h
    · rw [if_neg hsep] at h
      rw [not_not] at hsep
      refine ⟨hsep, ?_⟩
      cases hu1 : get_u16 data (s.pos + 1) (s.pos + 2) with
      | none =>
        rw [hu1] at h
        cases hu2 : get_u16 data (s.pos + 4) (s.pos + 5) <;>
          rw [hu2] at h <;> simp at h
      | some recLen =>
        rw [hu1] at h
        cases hu2 : get_u16 data (s.pos + 4) (s.pos + 5) with
        | none => rw [hu2] at h; simp at h
        | some t =>
          rw [hu2] at h
          simp only [] at h
          by_cases h6' : s.pos + 6 < data.length
          · rw [if_pos h6'] at h
            have hlen : recLen = recLenAt data s.pos := by
              unfold get_u16 at hu1
              rw [if_pos ⟨by omega, by omega⟩] at hu1
              unfold recLenAt
              exact (Option.some_injective _ hu1).symm
            split_ifs at h with hmvo himu
            · cases hm : mvoDecode data s.pos recLen (data.getD (s.pos + 6) 0)
                s.mvo with
              | none => rw [hm] at h; simp at h
              | some mvo' =>
                rw [hm] at h
                simp only [LogStep.next.injEq] at h
                rw [← h]
                simp [hlen]
            · cases hi : imuDecode data s.pos recLen (data.getD (s.pos + 6) 0)
                with
              | none => rw [hi] at h; simp at h
              | some imu' =>
                rw [hi] at h
                simp only [LogStep.next.injEq] at h
                rw [← h]
                simp [hlen]
            · simp only [LogStep.next.injEq] at h
              rw [← h]
              simp [hlen]
          · rw [if_neg h6'] at h
            simp at h
  · rw [if_neg h0] at h
    simp at h

theorem logDataLoop_terminates (data : List Nat) (h6 : 6 ≤ data.length)
    (h64 : data.length < 2 ^ 64)
    (hrec : ∀ p, p + 6 < data.length → data.getD p 0 = 85 →
      1 ≤ recLenAt data p) :
    ∀ (fuel : Nat) (s : LogState), data.length - 6 ≤ s.pos + fuel →
      logDataLoop data fuel s ≠ .outOfFuel := by
  intro fuel
  induction fuel with
  | zero =>
    intro s hle
    simp only [logDataLoop]
    rw [if_neg (by rw [usizeSub6 _ h6 h64]; omega)]
    simp
  | succ n ih =>
    intro s hle
    simp only [logDataLoop]
    split_ifs with hguard
    · have hlt : s.pos < data.length - 6 := by
        rw [usizeSub6 _ h6 h64] at hguard
        exact hguard
      cases hstep : logDataStep data s with
      | next s' =>
        obtain ⟨hsep, hpos⟩ := logDataStep_next data s s' hstep
        have hr := hrec s.pos (by omega) hsep
        exact ih s' (by omega)
      | brk s' => simp
      | panic => simp
    · simp

/-- Claim C3, amended: records with unknown record types are skipped and the
cursor advances by exactly the record's 2-byte length field; the decoder
terminates PROVIDED every record header it can reach carries a nonzero
length field (a zero length field loops forever, see the counterexample);
the loop stops as soon as the cursor is within 6 bytes of the payload end
for payloads of at least 6 bytes, and payloads shorter than 2 bytes return
immediately — but for payload lengths 2..5 the guard `pos < len - 6`
underflows and the loop is entered anyway. -/
theorem logData_new_amended (data : List Nat) :
    (6 ≤ data.length → data.length < 2 ^ 64 →
      (∀ p, p + 6 < data.length → data.getD p 0 = 85 → 1 ≤ recLenAt data p) →
      ∀ fuel, data.length ≤ fuel → LogData.new fuel data ≠ .outOfFuel)
    ∧ (6 ≤ data.length → data.length < 2 ^ 64 →
      ∀ s : LogState, s.pos < usizeSub data.length 6 →
        data.getD s.pos 0 = 85 →
        recTypeAt data s.pos ≠ logRecNewMVO →
        recTypeAt data s.pos ≠ logRecIMU →
        logDataStep data s = .next ⟨s.pos + recLenAt data s.pos, s.imu, s.mvo⟩)
    ∧ (∀ (fuel : Nat) (s : LogState), ¬ s.pos < usizeSub data.length 6 →
        logDataLoop data fuel s = .ok s.imu s.mvo)
    ∧ (data.length < 2 → ∀ fuel, LogData.new fuel data = .ok none none) := by
  refine ⟨?_, ?_, ?_, ?_⟩
  · intro h6 h64 hrec fuel hfuel
    unfold LogData.new
    rw [if_neg (by omega)]
    exact logDataLoop_terminates data h6 h64 hrec fuel ⟨1, none, none⟩ (by omega)
  · intro h6 h64 s hguard hsep hnm hni
    have hlt : s.pos < data.length - 6 := by
      rw [usizeSub6 _ h6 h64] at hguard
      exact hguard
    have h1 : get_u16 data (s.pos + 1) (s.pos + 2)
        = some (recLenAt data s.pos) := by
      unfold get_u16 recLenAt
      rw [if_pos ⟨by omega, by omega⟩]
    have h2 : get_u16 data (s.pos + 4) (s.pos + 5)
        = some (recTypeAt data s.pos) := by
      unfold get_u16 recTypeAt
      rw [if_pos ⟨by omega, by omega⟩]
    unfold logDataStep
    rw [if_pos (show s.pos < data.length by omega),
      if_neg (show ¬ data.getD s.pos 0 ≠ 85 from fun hx => hx hsep), h1, h2]
    simp only []
    rw [if_pos (show s.pos + 6 < data.length by omega), if_neg hnm, if_neg hni]
  · intro fuel s hguard
    cases fuel <;> · simp only [logDataLoop]
                     rw [if_neg hguard]
  · intro h2 fuel
    unfold LogData.new
    rw [if_pos h2]

/-- Witness for the amended C3 theorem: a 10-byte payload with one
length-1 unknown record at position 1 does not exhaust fuel 10; its loop
body at position 1 skips the record and advances by 1; the loop exits at
position 9; and a 1-byte payload returns `{imu: None, mvo: None}`. -/
theorem logData_new_amended_witness :
    LogData.new 10 [0, 85, 1, 0, 0, 99, 0, 0, 0, 0] ≠ .outOfFuel
    ∧ logDataStep [0, 85, 1, 0, 0, 99, 0, 0, 0, 0] ⟨1, none, none⟩
        = .next ⟨1 + recLenAt [0, 85, 1, 0, 0, 99, 0, 0, 0, 0] 1, none, none⟩
    ∧ logDataLoop [0, 85, 1, 0, 0, 99, 0, 0, 0, 0] 3 ⟨9, none, none⟩
        = .ok none none
    ∧ LogData.new 7 [7] = .ok none none := by
  have h1 := (logData_new_amended [0, 85, 1, 0, 0, 99, 0, 0, 0, 0]).1
    (by decide) (by norm_num)
    (by
      intro p hp hsep
      have hp4 : p < 4 := by
        simp only [List.length_cons, List.length_nil] at hp
        omega
      interval_cases p <;> revert hsep <;> decide)
    10 (by decide)
  have h2 := (logData_new_amended [0, 85, 1, 0, 0, 99, 0, 0, 0, 0]).2.1
    (by decide) (by norm_num) ⟨1, none, none⟩ (by decide) (by decide)
    (by decide) (by decide)
  have h3 := (logData_new_amended [0, 85, 1, 0, 0, 99, 0, 0, 0, 0]).2.2.1
    3 ⟨9, none, none⟩ (by decide)
  have h4 := (logData_new_amended [7]).2.2.2 (by decide) 7
  exact ⟨h1, h2, h3, h4⟩

/-! ## NewMVO flags byte (claim C4) -/

/-- The little-endian `i16` value at two indices of a buffer (the value
`get_i16` returns when in bounds). -/
def i16At (buff : List Nat) (lo hi : Nat) : Int :=
  i16OfBits ((buff.getD lo 0 + ((buff.getD hi 0) <<< 8)) % 65536)

/-- The little-endian 32-bit pattern at an index of a buffer (the value
`bytes_to_f32` returns when in bounds). -/
def f32At (buff : List Nat) (index : Nat) : Nat :=
  buff.getD index 0 + ((buff.getD (index + 1) 0) <<< 8)
    + ((buff.getD (index + 2) 0) <<< 16) + ((buff.getD (index + 3) 0) <<< 24)

/-- A 100-byte log payload holding a single NewMVO record at position 1
(separator 0x55, record length 99, type 0x001d, XOR key 0) whose RAW byte
at absolute index 86 is 0 while byte 87 — which is body offset 76 of the
XOR-deobfuscated record — is 7 (velocity x/y/z bits set). -/
def mvoCounterPayload : List Nat :=
  [0, 85, 99, 0, 0, 29, 0] ++ List.replicate 79 0 ++ [0, 7]
    ++ List.replicate 12 0

/-- Claim C4 counterexample: on `mvoCounterPayload` the source's MVO branch
(`mvoDecode`, flags from the raw payload at absolute index 86 = 0) yields
no MVO data, while the decoder the spec describes (`mvoDecodeSpec`, flags
from body offset 76 of the XOR-deobfuscated record = 7) populates all
three velocities. -/
theorem mvo_flags_byte_counterexample :
    mvoDecode mvoCounterPayload 1 99 0 none = some none
    ∧ mvoDecodeSpec mvoCounterPayload 1 99 0 none
        = some (some { position := none, vx := some 0, vy := some 0,
                       vz := some 0 })
    ∧ mvoDecode mvoCounterPayload 1 99 0 none
        ≠ mvoDecodeSpec mvoCounterPayload 1 99 0 none := by decide

/-- Claim C4, amended: in the NewMVO branch the flags byte that decides
which fields are populated is the RAW payload byte at the absolute index
`offset + 76 = 86` — not XOR-deobfuscated and independent of the record's
position — while the velocity and position fields themselves are read from
the XOR-decoded record: bits 0x01/0x02/0x04 enable velocity x/y/z
(2-byte LE `i16` at record offsets 12/14/16, z negated) and bits
0x10/0x20/0x40 (all three required) enable the position vector (LE `f32`
patterns at record offsets 18 (y), 22 (x), 26 (z)); when no field is
enabled the prior `mvo` value is kept.  The bounds hypotheses keep every
indexed read of the source in range. -/
theorem mvoDecode_amended (data : List Nat) (pos recLen xorVal : Nat)
    (prior : Option MVOData)
    (h86 : 86 < data.length) (h30r : 30 ≤ recLen)
    (h30p : pos + 30 ≤ data.length) :
    mvoDecode data pos recLen xorVal prior
      = (let flags := data.getD 86 0
         let xorBuf := decode_buffer data xorVal pos recLen
         let vx : Option Int := if flags &&& logValidVelX ≠ 0
           then some (i16At xorBuf 12 13) else none
         let vy : Option Int := if flags &&& logValidVelY ≠ 0
           then some (i16At xorBuf 14 15) else none
         let vz : Option Int := if flags &&& logValidVelZ ≠ 0
           then some (negI16 (i16At xorBuf 16 17)) else none
         let position : Option Vec3 :=
           if flags &&& logValidPosY ≠ 0 ∧ flags &&& logValidPosX ≠ 0
               ∧ flags &&& logValidPosZ ≠ 0
           then some ⟨f32At xorBuf 22, f32At xorBuf 18, f32At xorBuf 26⟩
           else none
         if vx ≠ none ∨ vy ≠ none ∨ vz ≠ none ∨ position ≠ none
         then some (some ⟨position, vx, vy, vz⟩)
         else some prior) := by
  have hxlen : 30 ≤ (decode_buffer data xorVal pos recLen).length := by
    unfold decode_buffer
    rw [List.length_map, List.length_take, List.length_drop]
    omega
  have e1 : get_i16 (decode_buffer data xorVal pos recLen) 12 13
      = some (i16At (decode_buffer data xorVal pos recLen) 12 13) := by
    unfold get_i16 i16At
    rw [if_pos ⟨by omega, by omega⟩]
  have e2 : get_i16 (decode_buffer data xorVal pos recLen) 14 15
      = some (i16At (decode_buffer data xorVal pos recLen) 14 15) := by
    unfold get_i16 i16At
    rw [if_pos ⟨by omega, by omega⟩]
  have e3 : get_i16 (decode_buffer data xorVal pos recLen) 16 17
      = some (i16At (decode_buffer data xorVal pos recLen) 16 17) := by
    unfold get_i16 i16At
    rw [if_pos ⟨by omega, by omega⟩]
  have eb1 : bytes_to_f32 (decode_buffer data xorVal pos recLen) 18
      = some (f32At (decode_buffer data xorVal pos recLen) 18) := by
    unfold bytes_to_f32 f32At
    rw [if_pos (by omega)]
  have eb2 : bytes_to_f32 (decode_buffer data xorVal pos recLen) 22
      = some (f32At (decode_buffer data xorVal pos recLen) 22) := by
    unfold bytes_to_f32 f32At
    rw [if_pos (by omega)]
  have eb3 : bytes_to_f32 (decode_buffer data xorVal pos recLen) 26
      = some (f32At (decode_buffer data xorVal pos recLen) 26) := by
    unfold bytes_to_f32 f32At
    rw [if_pos (by omega)]
  unfold mvoDecode
  rw [if_pos (show 10 + 76 < data.length by omega)]
  show (let flags := data.getD (10 + 76) 0; _ : Option (Option MVOData)) = _
  simp only [show (10 : Nat) + 76 = 86 from rfl, show (10 : Nat) + 2 = 12 from rfl,
    show (10 : Nat) + 3 = 13 from rfl, show (10 : Nat) + 4 = 14 from rfl,
    show (10 : Nat) + 5 = 15 from rfl, show (10 : Nat) + 6 = 16 from rfl,
    show (10 : Nat) + 7 = 17 from rfl, show (10 : Nat) + 8 = 18 from rfl,
    show (10 : Nat) + 12 = 22 from rfl, show (10 : Nat) + 16 = 26 from rfl,
    e1, e2, e3, eb1, eb2, eb3]
  split_ifs <;> simp_all

/-- Witness for the amended C4 theorem, instantiated on the concrete
counterexample payload. -/
theorem mvoDecode_amended_witness :
    mvoDecode mvoCounterPayload 1 99 0 none = some none := by
  have h := mvoDecode_amended mvoCounterPayload 1 99 0 none
    (by decide) (by decide) (by decide)
  rw [h]
  decide

end RustTello
